import Mathlib

/-! go-books: the request handler, the query-string builder and the mapper.

A shallow embedding of `src/main/handlers.go`.

* A Go `string` is a `GoString`, a list of characters.  Every separator,
  cutset and pattern the handler uses (`","`, `" "`, `"+"`) is a single ASCII
  character, so the byte view of Go and the character view used here agree.
* Go `int` / `int64` values that are only stored and copied are `Int`.
* `fmt.Sprintf` with `%s` is concatenation, with `%d` it is `fmtD`.
* Functions of the Go standard library are embedded in the namespaces
  `strings` and `strconv` under their Go names.
* A nil-pointer dereference is the outcome `Outcome.panic`.
* What `net/http`, `net/url` and `encoding/json` return is a parameter
  (`World`); the calls of the `go-server` response writer are recorded as a
  `Response`.
* Logging (`log.Printf`, `log.Println`) has no effect on any value and is
  left out.
-/

set_option autoImplicit false

/-- A Go string, as its sequence of characters. -/
abbrev GoString := List Char

/-! ## The parts of the Go standard library the handler calls -/

namespace strings

/-- Go `strings.TrimRight(s, cutset)`: drops every trailing character of `s`
that occurs in `cutset`. -/
def TrimRight (s cutset : GoString) : GoString :=
  (s.reverse.dropWhile (fun c => decide (c ∈ cutset))).reverse

/-- Go `strings.TrimLeft(s, cutset)`: drops every leading character of `s`
that occurs in `cutset`. -/
def TrimLeft (s cutset : GoString) : GoString :=
  s.dropWhile (fun c => decide (c ∈ cutset))

/-- Go `strings.Trim(s, cutset)`: drops leading and trailing characters of
`s` that occur in `cutset`. -/
def Trim (s cutset : GoString) : GoString :=
  TrimRight (TrimLeft s cutset) cutset

/-- The scan of `strings.Split` for a non-empty separator: `skip` counts the
characters of a separator occurrence still to be passed over and `acc` holds
the current piece, reversed. -/
def splitScan (sep : GoString) : Nat → GoString → GoString → List GoString
  | _, acc, [] => [acc.reverse]
  | skip + 1, acc, _ :: cs => splitScan sep skip acc cs
  | 0, acc, c :: cs =>
    if sep.isPrefixOf (c :: cs) then
      acc.reverse :: splitScan sep (sep.length - 1) [] cs
    else
      splitScan sep 0 (c :: acc) cs

/-- Go `strings.Split(s, sep)`: the pieces of `s` between the successive,
non-overlapping occurrences of `sep`; with an empty `sep` one piece per
character. -/
def Split (s sep : GoString) : List GoString :=
  if sep = [] then s.map (fun c => [c]) else splitScan sep 0 [] s

/-- The scan of `strings.ReplaceAll` for a non-empty pattern: `skip` counts
the characters of a matched occurrence still to be passed over. -/
def replaceScan (old new : GoString) : Nat → GoString → GoString
  | _, [] => []
  | skip + 1, _ :: cs => replaceScan old new skip cs
  | 0, c :: cs =>
    if old.isPrefixOf (c :: cs) then
      new ++ replaceScan old new (old.length - 1) cs
    else
      c :: replaceScan old new 0 cs

/-- Go `strings.ReplaceAll(s, old, new)`: every non-overlapping occurrence of
`old` in `s`, from the left, is replaced by `new`; an empty `old` matches
before every character and at the end. -/
def ReplaceAll (s old new : GoString) : GoString :=
  if old = [] then new ++ s.flatMap (fun c => c :: new) else replaceScan old new 0 s

end strings

/-- The verb `%d` of `fmt.Sprintf` on a Go `int`: decimal digits, with a
leading minus sign for a negative number. -/
def fmtD (n : Int) : GoString :=
  if n < 0 then '-' :: Nat.toDigits 10 n.natAbs else Nat.toDigits 10 n.toNat

/-! ## Data model (`handlers.go`, lines 15 to 69) -/

/-- The constant `GoogleBooksBaseUrl`. -/
def GoogleBooksBaseUrl : GoString := "https://www.googleapis.com/books".toList

/-- The struct `BookFilters`. -/
structure BookFilters where
  Language : GoString
  Tittle : GoString
  Author : GoString
  Subject : GoString
  StartIndex : Int
  deriving DecidableEq, Repr

/-- The struct `Book`. -/
structure Book where
  Language : GoString
  Tittle : GoString
  Authors : List GoString
  Subjects : List GoString
  Publisher : GoString
  PublishedDate : GoString
  NumberOfPages : Int
  Description : GoString
  Ebook : Bool
  PublicDomain : Bool
  LinkToBuy : GoString
  deriving DecidableEq, Repr

/-- The struct `GBooksResponseItemVolumeInfo`. -/
structure GBooksResponseItemVolumeInfo where
  Title : GoString
  Subtitle : GoString
  Authors : List GoString
  Publisher : GoString
  PublishedDate : GoString
  Description : GoString
  PageCount : Int
  Categories : List GoString
  Language : GoString
  deriving DecidableEq, Repr

/-- The struct `GBooksResponseItemSaleInfo`. -/
structure GBooksResponseItemSaleInfo where
  IsEbook : Bool
  BuyLink : GoString
  deriving DecidableEq, Repr

/-- The struct `GBooksResponseItemAccessInfo`. -/
structure GBooksResponseItemAccessInfo where
  PublicDomain : Bool
  deriving DecidableEq, Repr

/-- The struct `GBooksResponseItems`. -/
structure GBooksResponseItems where
  VolumeInfo : GBooksResponseItemVolumeInfo
  SaleInfo : GBooksResponseItemSaleInfo
  AccessInfo : GBooksResponseItemAccessInfo
  deriving DecidableEq, Repr

/-- The struct `GBooksResponse`. -/
structure GBooksResponse where
  TotalItems : Int
  Items : List GBooksResponseItems
  deriving DecidableEq, Repr

/-- The zero value of `Book`, with which `make([]Book, n)` fills a slice. -/
def Book.zero : Book :=
  { Language := [], Tittle := [], Authors := [], Subjects := [], Publisher := [],
    PublishedDate := [], NumberOfPages := 0, Description := [], Ebook := false,
    PublicDomain := false, LinkToBuy := [] }

/-! ## `getQParams` (`handlers.go`, lines 162 to 191) -/

/-- The value of `qParams` after line 178 of `getQParams`: `"q="`, the
non-empty filters each followed by `"+"`, then `strings.TrimRight(_, "+")`. -/
def queryTerm (filters : BookFilters) : GoString :=
  let qParams : GoString := "q=".toList
  let qParams :=
    if filters.Author ≠ [] then qParams ++ ("inauthor:".toList ++ filters.Author ++ "+".toList)
    else qParams
  let qParams :=
    if filters.Tittle ≠ [] then qParams ++ ("intitle:".toList ++ filters.Tittle ++ "+".toList)
    else qParams
  let qParams :=
    if filters.Subject ≠ [] then qParams ++ ("subject:".toList ++ filters.Subject ++ "+".toList)
    else qParams
  strings.TrimRight qParams "+".toList

/-- The value of `qParams` after line 188 of `getQParams`, the assembled
string on which line 190 calls `strings.ReplaceAll`. -/
def assembledQParams (filters : BookFilters) : GoString :=
  let qParams := queryTerm filters
  let qParams :=
    if filters.Language ≠ [] then qParams ++ ("&langRestrict=".toList ++ filters.Language)
    else qParams
  let startIndex : Int := 0
  -- lines 185 to 187 reset the field of the local copy, which is not read again
  let _filters : BookFilters :=
    if filters.StartIndex > 1 then { filters with StartIndex := 0 } else filters
  qParams ++ ("&startIndex=".toList ++ fmtD startIndex)

/-- The function `getQParams`. -/
def getQParams (filters : BookFilters) : GoString :=
  strings.ReplaceAll (assembledQParams filters) " ".toList "%20".toList

/-! ## `gBooksRespToBooks` (`handlers.go`, lines 193 to 214) -/

/-- The struct literal built in the body of the loop of `gBooksRespToBooks`. -/
def itemToBook (item : GBooksResponseItems) : Book :=
  { Language := item.VolumeInfo.Language
    Tittle := item.VolumeInfo.Title
    Authors := item.VolumeInfo.Authors
    Subjects := item.VolumeInfo.Categories
    Publisher := item.VolumeInfo.Publisher
    PublishedDate := item.VolumeInfo.PublishedDate
    NumberOfPages := item.VolumeInfo.PageCount
    Description := item.VolumeInfo.Description
    Ebook := item.SaleInfo.IsEbook
    PublicDomain := item.AccessInfo.PublicDomain
    LinkToBuy := item.SaleInfo.BuyLink }

/-- The loop `for i, item := range response.Items { books[i] = b }`, started
at index `i` on the items still to visit. -/
def fillBooks : Nat → List GBooksResponseItems → List Book → List Book
  | _, [], books => books
  | i, item :: rest, books => fillBooks (i + 1) rest (books.set i (itemToBook item))

/-- The function `gBooksRespToBooks`. -/
def gBooksRespToBooks (response : GBooksResponse) : List Book :=
  let books := List.replicate response.Items.length Book.zero
  fillBooks 0 response.Items books

/-! ## The collaborators of the handler

`net/http`, `net/url`, `encoding/json` and the `go-server` package are not
part of this repository.  What they return is a parameter of the model
(`World`); what the handler passes to the response writer is recorded in a
`Response`. -/

namespace strconv

/-- Go `strconv.Atoi`: an optional sign, then one or more decimal digits, the
value within the range of a 64-bit `int`; `none` stands for a non-nil error. -/
def Atoi (s : GoString) : Option Int :=
  match s with
  | [] => none
  | c :: rest =>
    let neg := decide (c = '-')
    let digits := if c = '-' ∨ c = '+' then rest else s
    if digits = [] ∨ ¬ (digits.all Char.isDigit) then none
    else
      let n : Nat := digits.foldl (fun acc d => acc * 10 + (d.toNat - 48)) 0
      let v : Int := if neg then -(n : Int) else (n : Int)
      if v < -(2 : Int) ^ 63 ∨ v > (2 : Int) ^ 63 - 1 then none else some v

end strconv

/-- The result of running Go code that may dereference a nil pointer: it
returns a value or it panics. -/
inductive Outcome (α : Type) where
  | ret (a : α)
  | panic
  deriving DecidableEq, Repr

/-- A Go `error` value, as its message (`err.Error()`). -/
abbrev GoError := GoString

/-- A `http.Header` or `url.Values`, as the list of its keys and values. -/
abbrev Values := List (GoString × GoString)

/-- The method `Get` of `http.Header` and of `url.Values`: the first value of
the key, the empty string when the key is absent. -/
def Values.Get (v : Values) (key : GoString) : GoString :=
  match v.find? (fun kv => decide (kv.1 = key)) with
  | some kv => kv.2
  | none => []

/-- What `booksHandler` reads of the inbound `*http.Request`. -/
structure Request where
  Method : GoString
  /-- Go `req.Body != nil`. -/
  hasBody : Bool
  Header : Values
  /-- Go `req.URL.Query()`. -/
  Query : Values
  deriving DecidableEq, Repr

/-- The outbound `*http.Request` built by `findBooks`. -/
structure OutRequest where
  Method : GoString
  URL : GoString
  Header : Values
  deriving DecidableEq, Repr

/-- What `findBooks` reads of the upstream `*http.Response`. -/
structure HttpResponse where
  StatusCode : Int
  Body : GoString
  deriving DecidableEq, Repr

/-- The behaviour of the libraries `findBooks` calls. -/
structure World where
  /-- Go `url.Parse(raw)` followed by `u.String()`; `none` when the parse fails,
  in which case the `*url.URL` is nil. -/
  urlParse : GoString → Option GoString
  /-- The error of `http.NewRequest(method, url, nil)`, `none` for nil; with
  an error the `*http.Request` is nil. -/
  newRequestErr : GoString → GoString → Option GoError
  /-- Go `client.Do(req)`: the `*http.Response` (`none` for nil) and the error
  (`none` for nil). -/
  clientDo : OutRequest → Option HttpResponse × Option GoError
  /-- Go `json.NewDecoder(body).Decode(&gBooksResp)`. -/
  jsonDecode : GoString → Except GoError GBooksResponse

/-- What the handler hands to the response writer of `go-server`. -/
inductive Payload where
  /-- Go `server.WriteErrorResp(status, message, rw)`. -/
  | error (message : GoString)
  /-- Go `server.WriteRespWithStatus(rw, status, books)`. -/
  | books (bs : List Book)
  deriving DecidableEq, Repr

/-- The response written by the handler. -/
structure Response where
  status : Nat
  payload : Payload
  deriving DecidableEq, Repr

/-- One run of `booksHandler`: the filter sets it passed to `findBooks`, in
order, and the response it wrote (or the panic it ended in). -/
structure HandlerRun where
  findBooksCalls : List BookFilters
  outcome : Outcome Response
  deriving DecidableEq, Repr

/-- The status of the response written in a run, `none` when the handler
panicked before writing one. -/
def HandlerRun.status (r : HandlerRun) : Option Nat :=
  match r.outcome with
  | Outcome.ret resp => some resp.status
  | Outcome.panic => none

/-! ## `findBooks` (`handlers.go`, lines 123 to 160) -/

/-- The method `Set` of `http.Header` on a header that holds no value yet for
the key. -/
def OutRequest.setHeader (r : OutRequest) (key value : GoString) : OutRequest :=
  { r with Header := r.Header.filter (fun kv => decide (kv.1 ≠ key)) ++ [(key, value)] }

/-- The function `findBooks`; the pair is the Go result `([]Book, error)`,
a nil slice being the empty list. -/
def findBooks (w : World) (filters : BookFilters) : Outcome (List Book × Option GoError) :=
  let qParamFilters := getQParams filters
  -- line 126: the error of url.Parse is discarded, u is nil when it fails
  let u := w.urlParse (GoogleBooksBaseUrl ++ "/v1/volumes?".toList ++ qParamFilters)
  -- line 130: u.String() dereferences u
  match u with
  | none => Outcome.panic
  | some uString =>
    let err := w.newRequestErr "GET".toList uString
    let req : Option OutRequest :=
      if err.isNone then some { Method := "GET".toList, URL := uString, Header := [] } else none
    -- lines 131 and 132: req.Header.Set dereferences req
    match req with
    | none => Outcome.panic
    | some req =>
      let req := req.setHeader "Cache-Control".toList "no-cache".toList
      let req := req.setHeader "Host".toList "no-cache".toList
      match err with
      | some e => Outcome.ret ([], some e)
      | none =>
        -- line 138: the error of client.Do is not examined before resp is used
        let (resp, _err) := w.clientDo req
        -- line 139: resp.StatusCode dereferences resp
        match resp with
        | none => Outcome.panic
        | some resp =>
          if resp.StatusCode ≠ 200 then
            let err : GoError :=
              "error while trying to make a request to Google Books API. Status code ".toList
                ++ fmtD resp.StatusCode
            Outcome.ret ([], some err)
          else
            match w.jsonDecode resp.Body with
            | Except.error e => Outcome.ret ([], some e)
            | Except.ok gBooksResp => Outcome.ret (gBooksRespToBooks gBooksResp, none)

/-! ## `booksHandler` (`handlers.go`, lines 71 to 121) -/

/-- The flag `requestAcceptsJSONAsResponse` after the loop of lines 73 to 81,
for the value of the `Accept` header. -/
def requestAcceptsJSONAsResponse (accept : GoString) : Bool :=
  let acceptHeaderValues := strings.Split accept ",".toList
  acceptHeaderValues.foldl
    (fun flag value =>
      let value := strings.Trim value " ".toList
      if value = "application/json".toList ∨ value = "*/*".toList then true else flag)
    false

/-- The filter set built at lines 97 to 108 from the query parameters; a
`startIndex` that `strconv.Atoi` rejects counts as 0. -/
def requestFilters (qParams : Values) : BookFilters :=
  let startIndex : Int :=
    match strconv.Atoi (qParams.Get "startIndex".toList) with
    | some n => n
    | none => 0
  { Language := qParams.Get "lang".toList
    Tittle := qParams.Get "tittle".toList
    Author := qParams.Get "author".toList
    Subject := qParams.Get "subject".toList
    StartIndex := startIndex }

/-- The function `booksHandler`. -/
def booksHandler (w : World) (req : Request) : HandlerRun :=
  if req.Method = "GET".toList ∧ req.hasBody = true then
    if ¬ (requestAcceptsJSONAsResponse (req.Header.Get "Accept".toList) = true) then
      let message := "Header Accepts with value application/json not found in request".toList
      { findBooksCalls := [], outcome := Outcome.ret ⟨415, Payload.error message⟩ }
    else
      let qParams := req.Query
      if qParams.Get "tittle".toList = [] then
        { findBooksCalls := [],
          outcome := Outcome.ret ⟨404, Payload.error "Filter tittle not present".toList⟩ }
      else
        let filters := requestFilters qParams
        match findBooks w filters with
        | Outcome.panic => { findBooksCalls := [filters], outcome := Outcome.panic }
        | Outcome.ret (_, some err) =>
          let message := "Could not retrieve books: ".toList ++ err
          { findBooksCalls := [filters], outcome := Outcome.ret ⟨500, Payload.error message⟩ }
        | Outcome.ret (books, none) =>
          { findBooksCalls := [filters], outcome := Outcome.ret ⟨200, Payload.books books⟩ }
  else
    { findBooksCalls := [], outcome := Outcome.ret ⟨404, Payload.error "Not found".toList⟩ }

/-! ## The specification side

Definitions that follow the words of the specification, against which the
code is compared. -/

/-- The specification's "replace every literal space character with its
percent-encoded form": each space becomes `%20`, every other character stays
as it is. -/
def escapeSpaces (s : GoString) : GoString :=
  s.flatMap (fun c => if c = ' ' then "%20".toList else [c])

/-- The specification's query components: the non-empty ones among
`inauthor:<author>`, `intitle:<title>`, `subject:<subject>`, in that order. -/
def specComponents (f : BookFilters) : List GoString :=
  (if f.Author ≠ [] then ["inauthor:".toList ++ f.Author] else [])
    ++ (if f.Tittle ≠ [] then ["intitle:".toList ++ f.Tittle] else [])
    ++ (if f.Subject ≠ [] then ["subject:".toList ++ f.Subject] else [])

/-- The specification's assembled string before space escaping: `q=`, the
components joined by `+`, `&langRestrict=<language>` when a language is
given, `&startIndex=0`. -/
def specAssembled (f : BookFilters) : GoString :=
  "q=".toList ++ "+".toList.intercalate (specComponents f)
    ++ (if f.Language ≠ [] then "&langRestrict=".toList ++ f.Language else [])
    ++ "&startIndex=0".toList

/-- Whitespace in the wide sense: space, tab, line feed, vertical tab, form
feed, carriage return, next line, no-break space. -/
def isWhitespace (c : Char) : Bool :=
  c = ' ' || c = Char.ofNat 9 || c = Char.ofNat 10 || c = Char.ofNat 11 || c = Char.ofNat 12
    || c = Char.ofNat 13 || c = Char.ofNat 0x85 || c = Char.ofNat 0xA0

/-- Trimming of surrounding whitespace in the wide sense. -/
def trimWhitespace (s : GoString) : GoString :=
  ((s.dropWhile isWhitespace).reverse.dropWhile isWhitespace).reverse

/-- An entry of the `Accept` header is compatible with JSON when, trimmed of
surrounding spaces, it is `application/json` or `*/*`. -/
def EntryAcceptsJSON (entry : GoString) : Prop :=
  strings.Trim entry " ".toList = "application/json".toList
    ∨ strings.Trim entry " ".toList = "*/*".toList

instance (entry : GoString) : Decidable (EntryAcceptsJSON entry) := by
  unfold EntryAcceptsJSON; infer_instance

/-! ## Concrete inputs -/

/-- A filter set with nothing but the given title. -/
def titleOnly (title : GoString) : BookFilters :=
  { Language := [], Tittle := title, Author := [], Subject := [], StartIndex := 0 }

/-- A filter set with every filter given and a title that holds a space. -/
def filtersDuneMessiah : BookFilters :=
  { Language := "en".toList, Tittle := "Dune Messiah".toList, Author := "Herbert".toList,
    Subject := "Fiction".toList, StartIndex := 40 }

/-- A world in which every outbound call fails with a network error. -/
def worldNetworkDown : World :=
  { urlParse := fun raw => some raw
    newRequestErr := fun _ _ => none
    clientDo := fun _ => (none, some "dial tcp: connection refused".toList)
    jsonDecode := fun _ => Except.error "unexpected end of JSON input".toList }

/-- An upstream item titled Dune. -/
def itemDune : GBooksResponseItems :=
  { VolumeInfo :=
      { Title := "Dune".toList, Subtitle := [], Authors := ["Frank Herbert".toList],
        Publisher := "Ace".toList, PublishedDate := "1965".toList, Description := [],
        PageCount := 612, Categories := ["Fiction".toList], Language := "en".toList }
    SaleInfo := { IsEbook := true, BuyLink := "https://example.org/dune".toList }
    AccessInfo := { PublicDomain := false } }

/-- An upstream item titled Emma. -/
def itemEmma : GBooksResponseItems :=
  { VolumeInfo :=
      { Title := "Emma".toList, Subtitle := [], Authors := ["Jane Austen".toList],
        Publisher := [], PublishedDate := "1815".toList, Description := [],
        PageCount := 474, Categories := [], Language := "en".toList }
    SaleInfo := { IsEbook := false, BuyLink := [] }
    AccessInfo := { PublicDomain := true } }

/-- A world whose upstream answers 200 with a body that decodes to two items. -/
def worldTwoBooks : World :=
  { urlParse := fun raw => some raw
    newRequestErr := fun _ _ => none
    clientDo := fun _ => (some { StatusCode := 200, Body := [] }, none)
    jsonDecode := fun _ => Except.ok { TotalItems := 2, Items := [itemDune, itemEmma] } }

/-- A world whose upstream answers with status 503. -/
def worldUnavailable : World :=
  { urlParse := fun raw => some raw
    newRequestErr := fun _ _ => none
    clientDo := fun _ => (some { StatusCode := 503, Body := "Service Unavailable".toList }, none)
    jsonDecode := fun _ => Except.error "unexpected end of JSON input".toList }

/-- The query `tittle=Dune`. -/
def queryDune : Values := [("tittle".toList, "Dune".toList)]

/-- The header value `text/html,<TAB>application/json`. -/
def acceptWithTab : GoString :=
  "text/html,".toList ++ Char.ofNat 9 :: "application/json".toList

/-- A `POST /books` request that accepts only `text/html`. -/
def postRequest : Request :=
  { Method := "POST".toList, hasBody := true,
    Header := [("Accept".toList, "text/html".toList)], Query := queryDune }

/-- A `POST /books` request that accepts `application/json`. -/
def postJSONRequest : Request :=
  { Method := "POST".toList, hasBody := true,
    Header := [("Accept".toList, "application/json".toList)], Query := queryDune }

/-- A `GET /books` request with the given `Accept` header and query. -/
def getRequest (accept : GoString) (query : Values) : Request :=
  { Method := "GET".toList, hasBody := true, Header := [("Accept".toList, accept)],
    Query := query }

/-! ## Lemmas on the library functions -/

theorem strings.replaceScan_single (a : Char) (new s : GoString) :
    strings.replaceScan [a] new 0 s = s.flatMap (fun c => if c = a then new else [c]) := by
  induction s with
  | nil => simp [strings.replaceScan]
  | cons c cs ih =>
    by_cases h : c = a
    · subst h
      simp [strings.replaceScan, List.isPrefixOf, ih]
    · have h2 : ¬ a = c := fun e => h e.symm
      simp [strings.replaceScan, List.isPrefixOf, ih, h, h2]

theorem strings.ReplaceAll_space (s : GoString) :
    strings.ReplaceAll s " ".toList "%20".toList = escapeSpaces s := by
  have h : " ".toList = [' '] := rfl
  rw [h]
  simp [strings.ReplaceAll, escapeSpaces, strings.replaceScan_single]

theorem escapeSpaces_append (s t : GoString) :
    escapeSpaces (s ++ t) = escapeSpaces s ++ escapeSpaces t := by
  simp [escapeSpaces]

theorem escapeSpaces_no_space (s : GoString) : ' ' ∉ escapeSpaces s := by
  intro h
  simp only [escapeSpaces, List.mem_flatMap] at h
  obtain ⟨c, _, hc⟩ := h
  by_cases e : c = ' '
  · rw [if_pos e] at hc
    revert hc
    decide
  · rw [if_neg e] at hc
    simp at hc
    exact e hc.symm

theorem escapeSpaces_length (s : GoString) :
    (escapeSpaces s).length = s.length + 2 * s.count ' ' := by
  induction s with
  | nil => rfl
  | cons c cs ih =>
    have hcons : escapeSpaces (c :: cs) = escapeSpaces [c] ++ escapeSpaces cs :=
      escapeSpaces_append [c] cs
    rw [hcons, List.length_append, ih]
    by_cases hc : c = ' '
    · subst hc
      have h1 : (escapeSpaces [' ']).length = 3 := by decide
      rw [h1, List.count_cons_self, List.length_cons]
      omega
    · have h1 : escapeSpaces [c] = [c] := by simp [escapeSpaces, hc]
      rw [h1, List.count_cons_of_ne (fun e => hc e.symm)]
      simp only [List.length_cons, List.length_nil]
      omega

theorem escapeSpaces_of_no_space (s : GoString) (h : ' ' ∉ s) : escapeSpaces s = s := by
  induction s with
  | nil => rfl
  | cons c cs ih =>
    have hc : c ≠ ' ' := fun e => h (by simp [e])
    have hcs : ' ' ∉ cs := fun m => h (List.mem_cons_of_mem _ m)
    have := ih hcs
    simp only [escapeSpaces, List.flatMap_cons, if_neg hc] at this ⊢
    rw [this]; rfl

theorem strings.TrimRight_concat_mem (s cutset : GoString) (c : Char) (h : c ∈ cutset) :
    strings.TrimRight (s ++ [c]) cutset = strings.TrimRight s cutset := by
  simp [strings.TrimRight, h]

theorem strings.TrimRight_concat_not_mem (s cutset : GoString) (c : Char) (h : c ∉ cutset) :
    strings.TrimRight (s ++ [c]) cutset = s ++ [c] := by
  simp [strings.TrimRight, h]

/-- A separator appended after a non-empty value that does not end in the
separator is all that `TrimRight` removes. -/
theorem strings.TrimRight_separator (p v : GoString) (c : Char) (hne : v ≠ [])
    (hlast : v.getLast? ≠ some c) :
    strings.TrimRight (p ++ v ++ [c]) [c] = p ++ v := by
  rw [strings.TrimRight_concat_mem _ _ _ (by simp)]
  rcases List.eq_nil_or_concat v with h | ⟨L, b, h⟩
  · exact absurd h hne
  · subst h
    have hb : b ≠ c := by
      intro e
      apply hlast
      simp [e]
    have : p ++ L.concat b = (p ++ L) ++ [b] := by simp
    rw [this]
    exact strings.TrimRight_concat_not_mem _ _ _ (by simpa using hb)

/-- The scan of `Split` always yields at least one piece. -/
theorem strings.splitScan_ne_nil (sep : GoString) (s : GoString) :
    ∀ (n : Nat) (acc : GoString), strings.splitScan sep n acc s ≠ [] := by
  induction s with
  | nil => intro n acc; simp [strings.splitScan]
  | cons x xs ih =>
    intro n acc
    cases n with
    | zero =>
      rw [strings.splitScan]
      split
      · simp
      · exact ih _ _
    | succ k =>
      rw [strings.splitScan]
      exact ih _ _

/-- Joining a list of at least two pieces puts the separator after the first. -/
theorem intercalate_cons_of_ne_nil (sep a : GoString) (l : List GoString) (h : l ≠ []) :
    sep.intercalate (a :: l) = a ++ sep ++ sep.intercalate l := by
  cases l with
  | nil => exact absurd rfl h
  | cons b bs => simp [List.intercalate, List.intersperse]

/-- Splitting on a one-character separator loses nothing: the pieces joined by
the separator give the string back, and no piece holds the separator. -/
theorem strings.splitScan_single (c : Char) (s : GoString) :
    ∀ acc : GoString, c ∉ acc →
      [c].intercalate (strings.splitScan [c] 0 acc s) = acc.reverse ++ s
        ∧ ∀ e ∈ strings.splitScan [c] 0 acc s, c ∉ e := by
  induction s with
  | nil =>
    intro acc hacc
    simp [strings.splitScan, List.intercalate, hacc]
  | cons x xs ih =>
    intro acc hacc
    by_cases hx : c = x
    · subst hx
      have h := ih [] (by simp)
      rw [strings.splitScan, if_pos (by simp [List.isPrefixOf])]
      simp only [List.length_singleton, Nat.sub_self]
      constructor
      · rw [intercalate_cons_of_ne_nil _ _ _ (strings.splitScan_ne_nil _ _ _ _), h.1]
        simp
      · intro e he
        rcases List.mem_cons.mp he with rfl | he
        · simpa using hacc
        · exact h.2 e he
    · have h := ih (x :: acc) (by simp [hx, hacc])
      rw [strings.splitScan, if_neg (by simp [List.isPrefixOf, hx])]
      refine ⟨?_, h.2⟩
      rw [h.1]
      simp

/-- The model of `strings.Split` on a one-character separator: the pieces
joined by the separator give the string back, and no piece holds it. -/
theorem strings.Split_single (c : Char) (s : GoString) :
    [c].intercalate (strings.Split s [c]) = s ∧ ∀ e ∈ strings.Split s [c], c ∉ e := by
  have h := strings.splitScan_single c s [] (by simp)
  simpa [strings.Split] using h

/-! ## `getQParams` -/

/-- The tail of `getQParams`: the returned string is the space-escaped
concatenation of the query term, the language part and `&startIndex=0`. -/
theorem getQParams_eq (f : BookFilters) :
    getQParams f =
      escapeSpaces (queryTerm f
        ++ (if f.Language ≠ [] then "&langRestrict=".toList ++ f.Language else []))
        ++ "&startIndex=0".toList := by
  have h0 : "&startIndex=".toList ++ fmtD 0 = "&startIndex=0".toList := by decide
  have hs : escapeSpaces "&startIndex=0".toList = "&startIndex=0".toList := by decide
  dsimp only [getQParams, assembledQParams]
  rw [strings.ReplaceAll_space, h0, escapeSpaces_append, hs]
  congr 2
  by_cases hl : f.Language = []
  · rw [if_neg (by simpa using hl), if_neg (by simpa using hl), List.append_nil]
  · rw [if_pos hl, if_pos hl]

/-- With no value ending in `+`, the query term is `q=` followed by the
components joined by `+`. -/
theorem queryTerm_eq_spec (f : BookFilters) (hA : f.Author.getLast? ≠ some '+')
    (hT : f.Tittle.getLast? ≠ some '+') (hS : f.Subject.getLast? ≠ some '+') :
    queryTerm f = "q=".toList ++ "+".toList.intercalate (specComponents f) := by
  have hp : "+".toList = ['+'] := rfl
  simp only [queryTerm, specComponents, hp]
  by_cases a : f.Author = [] <;> by_cases t : f.Tittle = [] <;> by_cases s : f.Subject = []
  all_goals simp only [a, t, s, ne_eq, not_true_eq_false, not_false_eq_true, if_true, if_false]
  · decide
  · have := strings.TrimRight_separator ("q=".toList ++ "subject:".toList) f.Subject '+' s hS
    simpa [List.intercalate] using this
  · have := strings.TrimRight_separator ("q=".toList ++ "intitle:".toList) f.Tittle '+' t hT
    simpa [List.intercalate] using this
  · have := strings.TrimRight_separator
      ("q=".toList ++ "intitle:".toList ++ f.Tittle ++ ['+'] ++ "subject:".toList) f.Subject '+' s hS
    simpa [List.intercalate] using this
  · have := strings.TrimRight_separator ("q=".toList ++ "inauthor:".toList) f.Author '+' a hA
    simpa [List.intercalate] using this
  · have := strings.TrimRight_separator
      ("q=".toList ++ "inauthor:".toList ++ f.Author ++ ['+'] ++ "subject:".toList) f.Subject '+' s hS
    simpa [List.intercalate] using this
  · have := strings.TrimRight_separator
      ("q=".toList ++ "inauthor:".toList ++ f.Author ++ ['+'] ++ "intitle:".toList) f.Tittle '+' t hT
    simpa [List.intercalate] using this
  · have := strings.TrimRight_separator
      ("q=".toList ++ "inauthor:".toList ++ f.Author ++ ['+'] ++ "intitle:".toList ++ f.Tittle
        ++ ['+'] ++ "subject:".toList) f.Subject '+' s hS
    simpa [List.intercalate] using this

/-- C2: whatever the start index and the other fields of the filter set, the
string returned by `getQParams` ends with `&startIndex=0`, and changing only
the start index of a filter set does not change the returned string. -/
theorem getQParams_startIndex_always_zero (f : BookFilters) :
    "&startIndex=0".toList <:+ getQParams f
      ∧ ∀ i : Int, getQParams { f with StartIndex := i } = getQParams f := by
  refine ⟨?_, fun i => rfl⟩
  rw [getQParams_eq]
  exact List.suffix_append _ _

/-- C3, refuted as stated: for the title-only filter set with title `a b`, the
returned string `q=intitle:a%20b&startIndex=0` does not contain `q=intitle:`
immediately followed by the title value. -/
theorem getQParams_title_with_space_not_verbatim :
    getQParams (titleOnly "a b".toList) = "q=intitle:a%20b&startIndex=0".toList
      ∧ ¬ (("q=intitle:".toList ++ (titleOnly "a b".toList).Tittle)
            <:+: getQParams (titleOnly "a b".toList)) := by
  decide

/-- C3, amended: for every filter set in which only the title is given, the
title being non-empty and not ending in `+`, the string returned by
`getQParams` is `q=intitle:` immediately followed by the title value with
each space replaced by `%20`, followed by `&startIndex=0`; so it contains
`q=intitle:<escaped title>`, and the query term carries no trailing `+`. -/
theorem getQParams_title_only (f : BookFilters) (hT : f.Tittle ≠ [])
    (hA : f.Author = []) (hS : f.Subject = []) (hL : f.Language = [])
    (hplus : f.Tittle.getLast? ≠ some '+') :
    getQParams f
        = "q=intitle:".toList ++ escapeSpaces f.Tittle ++ "&startIndex=0".toList
      ∧ ("q=intitle:".toList ++ escapeSpaces f.Tittle) <:+: getQParams f
      ∧ (queryTerm f).getLast? ≠ some '+'
      ∧ ("q=intitle:".toList ++ escapeSpaces f.Tittle).getLast? ≠ some '+' := by
  have hq : queryTerm f = "q=intitle:".toList ++ f.Tittle := by
    rw [queryTerm_eq_spec f (by simp [hA]) hplus (by simp [hS])]
    simp only [specComponents, hA, hS, hT, ne_eq, not_true_eq_false, not_false_eq_true,
      if_true, if_false]
    simp [List.intercalate]
  have hk : escapeSpaces "q=intitle:".toList = "q=intitle:".toList := by decide
  have hg : getQParams f
      = "q=intitle:".toList ++ escapeSpaces f.Tittle ++ "&startIndex=0".toList := by
    rw [getQParams_eq, hq, if_neg (by simpa using hL), List.append_nil, escapeSpaces_append, hk]
  have hlast : (escapeSpaces f.Tittle).getLast? ≠ some '+' := by
    rcases List.eq_nil_or_concat f.Tittle with h | ⟨L, b, h⟩
    · exact absurd h hT
    · have hb : b ≠ '+' := by
        intro e
        apply hplus
        rw [h]
        simp [e]
      rw [h, List.concat_eq_append, escapeSpaces_append]
      by_cases hsp : b = ' '
      · subst hsp
        have : escapeSpaces [' '] = ['%', '2'] ++ ['0'] := by decide
        rw [this, ← List.append_assoc, List.getLast?_concat]
        decide
      · have : escapeSpaces [b] = [b] := by simp [escapeSpaces, hsp]
        rw [this, List.getLast?_concat]
        simpa using hb
  refine ⟨hg, ?_, ?_, ?_⟩
  · rw [hg]
    exact ⟨[], "&startIndex=0".toList, by simp⟩
  · rw [hq]
    rcases List.eq_nil_or_concat f.Tittle with h | ⟨L, b, h⟩
    · exact absurd h hT
    · have hb : b ≠ '+' := by
        intro e
        apply hplus
        rw [h]
        simp [e]
      rw [h, List.concat_eq_append, ← List.append_assoc, List.getLast?_concat]
      simpa using hb
  · intro h
    rw [List.getLast?_eq_some_iff] at h
    obtain ⟨ys, hys⟩ := h
    rcases List.eq_nil_or_concat (escapeSpaces f.Tittle) with h | ⟨L, b, h⟩
    · rw [h] at hlast hys
      revert hT
      intro hT
      apply hT
      cases hf : f.Tittle with
      | nil => rfl
      | cons c cs =>
        rw [hf] at h
        simp only [escapeSpaces, List.flatMap_cons] at h
        by_cases hc : c = ' '
        · rw [if_pos hc] at h
          exact absurd h (by simp)
        · rw [if_neg hc] at h
          exact absurd h (by simp)
    · rw [h, List.concat_eq_append, ← List.append_assoc] at hys
      have := List.append_inj_right' hys rfl
      rw [h, List.concat_eq_append, List.getLast?_concat] at hlast
      simp at this
      exact hlast (by rw [this])

/-- A witness of `getQParams_title_only`: the title `Dune Messiah`. -/
theorem getQParams_title_only_witness :
    getQParams (titleOnly "Dune Messiah".toList)
        = "q=intitle:".toList ++ escapeSpaces "Dune Messiah".toList ++ "&startIndex=0".toList
      ∧ ("q=intitle:".toList ++ escapeSpaces "Dune Messiah".toList)
          <:+: getQParams (titleOnly "Dune Messiah".toList)
      ∧ (queryTerm (titleOnly "Dune Messiah".toList)).getLast? ≠ some '+'
      ∧ ("q=intitle:".toList ++ escapeSpaces "Dune Messiah".toList).getLast? ≠ some '+' :=
  getQParams_title_only (titleOnly "Dune Messiah".toList) (by decide) rfl rfl rfl (by decide)

/-- C8, evaluated on the code: for the title-only filter set with title `C++`
the query term is `q=intitle:C`; `strings.TrimRight` removed the separator and
the two `+` that end the title value. -/
theorem getQParams_strips_plus_of_value :
    queryTerm (titleOnly "C++".toList) = "q=intitle:C".toList
      ∧ getQParams (titleOnly "C++".toList) = "q=intitle:C&startIndex=0".toList
      ∧ getQParams (titleOnly "C++".toList) ≠ "q=intitle:C++&startIndex=0".toList := by
  decide

/-- C9: for every filter set whose author, title and subject do not end in
`+`, `getQParams` returns the string obtained by replacing every space with
`%20` in `q=`, the non-empty components `inauthor:<author>`,
`intitle:<title>`, `subject:<subject>` joined by `+`, `&langRestrict=<language>`
when the language is non-empty, and `&startIndex=0`; when that string holds no
space it is returned unchanged. -/
theorem getQParams_refines_spec (f : BookFilters) (hA : f.Author.getLast? ≠ some '+')
    (hT : f.Tittle.getLast? ≠ some '+') (hS : f.Subject.getLast? ≠ some '+') :
    getQParams f = escapeSpaces (specAssembled f)
      ∧ (' ' ∉ specAssembled f → getQParams f = specAssembled f) := by
  have hs : escapeSpaces "&startIndex=0".toList = "&startIndex=0".toList := by decide
  have h : getQParams f = escapeSpaces (specAssembled f) := by
    rw [getQParams_eq, queryTerm_eq_spec f hA hT hS, specAssembled, escapeSpaces_append _ "&startIndex=0".toList, hs]
  exact ⟨h, fun hn => by rw [h, escapeSpaces_of_no_space _ hn]⟩

/-- A witness of `getQParams_refines_spec`: author, title with a space,
subject and language all given. -/
theorem getQParams_refines_spec_witness :
    getQParams filtersDuneMessiah
      = "q=inauthor:Herbert+intitle:Dune%20Messiah+subject:Fiction&langRestrict=en&startIndex=0".toList :=
  ((getQParams_refines_spec filtersDuneMessiah (by decide) (by decide) (by decide)).1).trans
    (by decide)

/-- C10: the string returned by `getQParams` holds no space character, and it
is the assembled string (the value of `qParams` before line 190) with each
space replaced by `%20` and every other character kept, in order. -/
theorem getQParams_no_space (f : BookFilters) :
    ' ' ∉ getQParams f
      ∧ getQParams f
          = (assembledQParams f).flatMap (fun c => if c = ' ' then "%20".toList else [c])
      ∧ (getQParams f).length
          = (assembledQParams f).length + 2 * (assembledQParams f).count ' ' := by
  have he : getQParams f = escapeSpaces (assembledQParams f) := by
    dsimp only [getQParams]
    rw [strings.ReplaceAll_space]
  refine ⟨?_, he, ?_⟩
  · rw [he]
    exact escapeSpaces_no_space _
  · rw [he]
    exact escapeSpaces_length _

/-! ## `gBooksRespToBooks` -/

/-- The loop started at index `i` overwrites the positions `i`, `i + 1`, ...
with the projections of the remaining items and leaves the others alone. -/
theorem fillBooks_eq (rest : List GBooksResponseItems) :
    ∀ (i : Nat) (books : List Book), i + rest.length ≤ books.length →
      fillBooks i rest books
        = books.take i ++ rest.map itemToBook ++ books.drop (i + rest.length) := by
  induction rest with
  | nil =>
    intro i books _
    simp [fillBooks]
  | cons item rest ih =>
    intro i books h
    simp only [List.length_cons] at h
    have hi : i < books.length := by omega
    rw [fillBooks, ih (i + 1) (books.set i (itemToBook item)) (by simp; omega)]
    have h1 : (books.set i (itemToBook item)).take (i + 1)
        = books.take i ++ [itemToBook item] := by
      rw [List.set_eq_take_append_cons_drop, if_pos hi, List.take_append_eq_append_take]
      simp [List.length_take, Nat.min_eq_left (Nat.le_of_lt hi), List.take_take]
    have h2 : (books.set i (itemToBook item)).drop (i + 1 + rest.length)
        = books.drop (i + (rest.length + 1)) := by
      rw [List.drop_set_of_lt _ _ (by omega)]
      congr 1
      omega
    rw [h1, h2]
    simp

/-- The function `gBooksRespToBooks` maps `itemToBook` over the items. -/
theorem gBooksRespToBooks_eq_map (response : GBooksResponse) :
    gBooksRespToBooks response = response.Items.map itemToBook := by
  have h := fillBooks_eq response.Items 0
    (List.replicate response.Items.length Book.zero) (by simp)
  simp only [gBooksRespToBooks]
  rw [h]
  simp

/-- C1: for an envelope with N items `gBooksRespToBooks` returns exactly N
books, and the book at each index `i` is the projection of the item at index
`i`: Language, Tittle, Authors, Subjects, Publisher, PublishedDate,
NumberOfPages and Description come from the fields Language, Title, Authors,
Categories, Publisher, PublishedDate, PageCount and Description of the volume
information, Ebook and LinkToBuy from IsEbook and BuyLink of the sale
information, PublicDomain from the access information. -/
theorem gBooksRespToBooks_projection (response : GBooksResponse) :
    (gBooksRespToBooks response).length = response.Items.length
      ∧ ∀ (i : Nat) (item : GBooksResponseItems), response.Items[i]? = some item →
          ∃ b : Book, (gBooksRespToBooks response)[i]? = some b
            ∧ b.Language = item.VolumeInfo.Language
            ∧ b.Tittle = item.VolumeInfo.Title
            ∧ b.Authors = item.VolumeInfo.Authors
            ∧ b.Subjects = item.VolumeInfo.Categories
            ∧ b.Publisher = item.VolumeInfo.Publisher
            ∧ b.PublishedDate = item.VolumeInfo.PublishedDate
            ∧ b.NumberOfPages = item.VolumeInfo.PageCount
            ∧ b.Description = item.VolumeInfo.Description
            ∧ b.Ebook = item.SaleInfo.IsEbook
            ∧ b.PublicDomain = item.AccessInfo.PublicDomain
            ∧ b.LinkToBuy = item.SaleInfo.BuyLink := by
  rw [gBooksRespToBooks_eq_map]
  refine ⟨by simp, fun i item h => ⟨itemToBook item, ?_, rfl, rfl, rfl, rfl, rfl, rfl, rfl, rfl,
    rfl, rfl, rfl⟩⟩
  simp [List.getElem?_map, h]

/-- A witness of `gBooksRespToBooks_projection`: in an envelope of two items
the second output book is the projection of the second item. -/
theorem gBooksRespToBooks_projection_witness :
    ∃ b : Book,
      (gBooksRespToBooks { TotalItems := 2, Items := [itemDune, itemEmma] })[1]? = some b
        ∧ b.Language = itemEmma.VolumeInfo.Language
        ∧ b.Tittle = itemEmma.VolumeInfo.Title
        ∧ b.Authors = itemEmma.VolumeInfo.Authors
        ∧ b.Subjects = itemEmma.VolumeInfo.Categories
        ∧ b.Publisher = itemEmma.VolumeInfo.Publisher
        ∧ b.PublishedDate = itemEmma.VolumeInfo.PublishedDate
        ∧ b.NumberOfPages = itemEmma.VolumeInfo.PageCount
        ∧ b.Description = itemEmma.VolumeInfo.Description
        ∧ b.Ebook = itemEmma.SaleInfo.IsEbook
        ∧ b.PublicDomain = itemEmma.AccessInfo.PublicDomain
        ∧ b.LinkToBuy = itemEmma.SaleInfo.BuyLink :=
  (gBooksRespToBooks_projection { TotalItems := 2, Items := [itemDune, itemEmma] }).2 1 itemEmma rfl

/-! ## `booksHandler` and `findBooks` -/

/-- The loop of lines 76 to 81 ends with the flag set exactly when the flag
was set before or some entry is compatible with JSON. -/
theorem acceptLoop_iff (l : List GoString) :
    ∀ b : Bool,
      l.foldl
          (fun flag value =>
            let value := strings.Trim value " ".toList
            if value = "application/json".toList ∨ value = "*/*".toList then true else flag)
          b = true
        ↔ b = true ∨ ∃ e ∈ l, EntryAcceptsJSON e := by
  induction l with
  | nil => intro b; simp
  | cons v vs ih =>
    intro b
    rw [List.foldl_cons, ih]
    by_cases hv : EntryAcceptsJSON v
    · have hv2 := hv
      unfold EntryAcceptsJSON at hv2
      simp only [if_pos hv2]
      constructor
      · intro _
        exact Or.inr ⟨v, List.mem_cons_self _ _, hv⟩
      · intro _
        simp
    · have hv2 := hv
      unfold EntryAcceptsJSON at hv2
      simp only [if_neg hv2]
      constructor
      · rintro (h | ⟨e, he, hE⟩)
        · exact Or.inl h
        · exact Or.inr ⟨e, List.mem_cons_of_mem _ he, hE⟩
      · rintro (h | ⟨e, he, hE⟩)
        · exact Or.inl h
        · rcases List.mem_cons.mp he with rfl | he
          · exact absurd hE hv
          · exact Or.inr ⟨e, he, hE⟩

/-- The flag `requestAcceptsJSONAsResponse` is set exactly when some
comma-separated entry of the header, trimmed of spaces, is `application/json`
or `*/*`. -/
theorem requestAcceptsJSONAsResponse_iff (accept : GoString) :
    requestAcceptsJSONAsResponse accept = true
      ↔ ∃ e ∈ strings.Split accept ",".toList, EntryAcceptsJSON e := by
  unfold requestAcceptsJSONAsResponse
  rw [acceptLoop_iff]
  simp

/-- A request that is not a `GET` with a body is answered 404 at once. -/
theorem booksHandler_not_get (w : World) (req : Request)
    (h : ¬ (req.Method = "GET".toList ∧ req.hasBody = true)) :
    booksHandler w req
      = { findBooksCalls := [], outcome := Outcome.ret ⟨404, Payload.error "Not found".toList⟩ } := by
  unfold booksHandler
  rw [if_neg h]

/-- A `GET` request that fails the `Accept` check is answered 415 at once. -/
theorem booksHandler_not_accepted (w : World) (req : Request)
    (hg : req.Method = "GET".toList ∧ req.hasBody = true)
    (ha : ¬ (requestAcceptsJSONAsResponse (req.Header.Get "Accept".toList) = true)) :
    booksHandler w req
      = { findBooksCalls := [],
          outcome := Outcome.ret ⟨415, Payload.error
            "Header Accepts with value application/json not found in request".toList⟩ } := by
  unfold booksHandler
  rw [if_pos hg, if_pos ha]

/-- A `GET` request that passes the `Accept` check and has no title is
answered 404 at once. -/
theorem booksHandler_no_title (w : World) (req : Request)
    (hg : req.Method = "GET".toList ∧ req.hasBody = true)
    (ha : requestAcceptsJSONAsResponse (req.Header.Get "Accept".toList) = true)
    (ht : req.Query.Get "tittle".toList = []) :
    booksHandler w req
      = { findBooksCalls := [],
          outcome := Outcome.ret ⟨404, Payload.error "Filter tittle not present".toList⟩ } := by
  unfold booksHandler
  rw [if_pos hg, if_neg (by simpa using ha)]
  simp only [ht, if_true]

/-- A `GET` request that passes both checks calls `findBooks` once, on the
filter set of its query, and answers according to the result. -/
theorem booksHandler_validated (w : World) (req : Request)
    (hg : req.Method = "GET".toList ∧ req.hasBody = true)
    (ha : requestAcceptsJSONAsResponse (req.Header.Get "Accept".toList) = true)
    (ht : req.Query.Get "tittle".toList ≠ []) :
    booksHandler w req
      = { findBooksCalls := [requestFilters req.Query],
          outcome :=
            match findBooks w (requestFilters req.Query) with
            | Outcome.panic => Outcome.panic
            | Outcome.ret (_, some err) =>
              Outcome.ret ⟨500, Payload.error ("Could not retrieve books: ".toList ++ err)⟩
            | Outcome.ret (books, none) => Outcome.ret ⟨200, Payload.books books⟩ } := by
  unfold booksHandler
  rw [if_pos hg, if_neg (by simpa using ha)]
  simp only [if_neg ht]
  rcases hf : findBooks w (requestFilters req.Query) with ⟨bs, _ | e⟩ | _ <;> rfl

/-- C4, refuted as stated: a `POST` request whose `Accept` header holds only
`text/html` has no entry compatible with JSON and is answered 404, not 415. -/
theorem booksHandler_post_not_415 :
    (∀ e ∈ strings.Split (postRequest.Header.Get "Accept".toList) ",".toList,
        ¬ EntryAcceptsJSON e)
      ∧ (booksHandler worldTwoBooks postRequest).status = some 404 := by
  decide

/-- C4, amended: for every `GET` request (with a non-nil body) whose `Accept`
header has no comma-separated entry that, trimmed of spaces, equals
`application/json` or `*/*`, the response status is 415 and `findBooks` is not
invoked; a request with another method is answered 404, whatever its `Accept`
header, and `findBooks` is not invoked either. -/
theorem booksHandler_unsupported_media_type (w : World) (req : Request) :
    (req.Method = "GET".toList → req.hasBody = true →
        (∀ e ∈ strings.Split (req.Header.Get "Accept".toList) ",".toList,
          ¬ EntryAcceptsJSON e) →
        (booksHandler w req).status = some 415 ∧ (booksHandler w req).findBooksCalls = [])
      ∧ (req.Method ≠ "GET".toList →
          (booksHandler w req).status = some 404 ∧ (booksHandler w req).findBooksCalls = []) := by
  constructor
  · intro hm hb ha
    have hn : ¬ (requestAcceptsJSONAsResponse (req.Header.Get "Accept".toList) = true) := by
      rw [requestAcceptsJSONAsResponse_iff]
      rintro ⟨e, he, hE⟩
      exact ha e he hE
    rw [booksHandler_not_accepted w req ⟨hm, hb⟩ hn]
    exact ⟨rfl, rfl⟩
  · intro hm
    rw [booksHandler_not_get w req (fun h => hm h.1)]
    exact ⟨rfl, rfl⟩

/-- A witness of `booksHandler_unsupported_media_type`: `GET` with
`Accept: text/html` is answered 415, `POST` with `Accept: application/json`
is answered 404, both without a call of `findBooks`. -/
theorem booksHandler_unsupported_media_type_witness :
    ((booksHandler worldTwoBooks (getRequest "text/html".toList queryDune)).status = some 415
        ∧ (booksHandler worldTwoBooks (getRequest "text/html".toList queryDune)).findBooksCalls
            = [])
      ∧ (booksHandler worldTwoBooks postJSONRequest).status = some 404
      ∧ (booksHandler worldTwoBooks postJSONRequest).findBooksCalls = [] :=
  ⟨(booksHandler_unsupported_media_type worldTwoBooks
      (getRequest "text/html".toList queryDune)).1 rfl rfl (by decide),
    (booksHandler_unsupported_media_type worldTwoBooks postJSONRequest).2 (by decide)⟩

/-- C5, refuted as stated: a `GET` request without `tittle` whose `Accept`
header holds only `text/html` is answered 415, not 404. -/
theorem booksHandler_no_title_415 :
    (getRequest "text/html".toList []).Query.Get "tittle".toList = []
      ∧ (booksHandler worldTwoBooks (getRequest "text/html".toList [])).status = some 415 := by
  decide

/-- C5, amended: for every request whose `tittle` query parameter is missing
or empty, `findBooks` is not invoked and the response status is 404, except
that a `GET` request (with a non-nil body) failing the `Accept` check is
answered 415; and every filter set that reaches `findBooks` has a non-empty
title. -/
theorem booksHandler_title_required (w : World) (req : Request) :
    (req.Query.Get "tittle".toList = [] →
        (booksHandler w req).findBooksCalls = []
          ∧ (booksHandler w req).status
              = some (if req.Method = "GET".toList ∧ req.hasBody = true
                        ∧ requestAcceptsJSONAsResponse (req.Header.Get "Accept".toList) = false
                      then 415 else 404))
      ∧ ∀ f ∈ (booksHandler w req).findBooksCalls, f.Tittle ≠ [] := by
  by_cases hg : req.Method = "GET".toList ∧ req.hasBody = true
  · by_cases ha : requestAcceptsJSONAsResponse (req.Header.Get "Accept".toList) = true
    · by_cases ht : req.Query.Get "tittle".toList = []
      · rw [booksHandler_no_title w req hg ha ht]
        refine ⟨fun _ => ⟨rfl, ?_⟩, fun f hf => by simp at hf⟩
        rw [if_neg (fun h => absurd (ha.symm.trans h.2.2) (by decide))]
        rfl
      · rw [booksHandler_validated w req hg ha ht]
        refine ⟨fun h => absurd h ht, fun f hf => ?_⟩
        simp only [List.mem_singleton] at hf
        subst hf
        exact ht
    · rw [booksHandler_not_accepted w req hg ha]
      refine ⟨fun _ => ⟨rfl, ?_⟩, fun f hf => by simp at hf⟩
      rw [if_pos ⟨hg.1, hg.2, by simpa using ha⟩]
      rfl
  · rw [booksHandler_not_get w req hg]
    refine ⟨fun _ => ⟨rfl, ?_⟩, fun f hf => by simp at hf⟩
    rw [if_neg (fun h => hg ⟨h.1, h.2.1⟩)]
    rfl

/-- A witness of `booksHandler_title_required`: `GET /books` without `tittle`
and with `Accept: application/json` is answered 404 without a call of
`findBooks`. -/
theorem booksHandler_title_required_witness :
    (booksHandler worldTwoBooks (getRequest "application/json".toList [])).findBooksCalls = []
      ∧ (booksHandler worldTwoBooks (getRequest "application/json".toList [])).status
          = some 404 :=
  (booksHandler_title_required worldTwoBooks (getRequest "application/json".toList [])).1
    (by decide)

/-- When the outbound call returns no response (a network error), `findBooks`
panics on every filter set: line 139 reads `resp.StatusCode` of a nil
response, and no path returns an error. -/
theorem findBooks_panics_without_response (w : World)
    (hnet : ∀ r : OutRequest, (w.clientDo r).1 = none) (filters : BookFilters) :
    findBooks w filters = Outcome.panic := by
  unfold findBooks
  simp only
  cases w.urlParse (GoogleBooksBaseUrl ++ "/v1/volumes?".toList ++ getQParams filters) with
  | none => rfl
  | some u =>
    simp only
    cases w.newRequestErr "GET".toList u with
    | some e => rfl
    | none =>
      simp only [Option.isNone_none, if_true]
      split
      · rfl
      · rename_i resp heq
        rw [hnet] at heq
        exact absurd heq (by simp)

/-- C6, evaluated on the code: when the outbound call fails with a network
error (`client.Do` returns a nil response), `findBooks` returns no error, it
panics; and `booksHandler`, on a request that passed both checks, writes no
response at all, so no status 500. -/
theorem booksHandler_network_error_panics (w : World) (req : Request)
    (hnet : ∀ r : OutRequest, (w.clientDo r).1 = none)
    (hm : req.Method = "GET".toList) (hb : req.hasBody = true)
    (ha : requestAcceptsJSONAsResponse (req.Header.Get "Accept".toList) = true)
    (ht : req.Query.Get "tittle".toList ≠ []) :
    findBooks w (requestFilters req.Query) = Outcome.panic
      ∧ (booksHandler w req).findBooksCalls = [requestFilters req.Query]
      ∧ (booksHandler w req).outcome = Outcome.panic
      ∧ (booksHandler w req).status ≠ some 500 := by
  have hf := findBooks_panics_without_response w hnet (requestFilters req.Query)
  rw [booksHandler_validated w req ⟨hm, hb⟩ ha ht, hf]
  exact ⟨rfl, rfl, rfl, by simp [HandlerRun.status]⟩

/-- A witness of `booksHandler_network_error_panics`: `GET /books?tittle=Dune`
with `Accept: application/json` while the upstream is unreachable. -/
theorem booksHandler_network_error_panics_witness :
    findBooks worldNetworkDown
        (requestFilters (getRequest "application/json".toList queryDune).Query) = Outcome.panic
      ∧ (booksHandler worldNetworkDown
          (getRequest "application/json".toList queryDune)).findBooksCalls
          = [requestFilters (getRequest "application/json".toList queryDune).Query]
      ∧ (booksHandler worldNetworkDown (getRequest "application/json".toList queryDune)).outcome
          = Outcome.panic
      ∧ (booksHandler worldNetworkDown (getRequest "application/json".toList queryDune)).status
          ≠ some 500 :=
  booksHandler_network_error_panics worldNetworkDown
    (getRequest "application/json".toList queryDune) (fun _ => rfl) rfl rfl (by decide)
    (by decide)

/-- C7, refuted as stated: in the header `text/html,<TAB>application/json` the
second entry equals `application/json` once surrounding whitespace is
trimmed, yet the request is answered 415. -/
theorem booksHandler_tab_entry_415 :
    (∃ e ∈ strings.Split acceptWithTab ",".toList,
        trimWhitespace e = "application/json".toList ∨ trimWhitespace e = "*/*".toList)
      ∧ (booksHandler worldTwoBooks (getRequest acceptWithTab queryDune)).status = some 415 := by
  decide

/-- C7, amended: for every `GET` request (with a non-nil body) the
content-negotiation check passes (no 415) if and only if the `Accept` header,
split on commas, has at least one entry that equals `application/json` or
`*/*` after surrounding space characters are trimmed from it. -/
theorem booksHandler_accept_check_iff (w : World) (req : Request)
    (hm : req.Method = "GET".toList) (hb : req.hasBody = true) :
    (booksHandler w req).status ≠ some 415
      ↔ ∃ e ∈ strings.Split (req.Header.Get "Accept".toList) ",".toList,
          strings.Trim e " ".toList = "application/json".toList
            ∨ strings.Trim e " ".toList = "*/*".toList := by
  have hiff := requestAcceptsJSONAsResponse_iff (req.Header.Get "Accept".toList)
  unfold EntryAcceptsJSON at hiff
  rw [← hiff]
  by_cases ha : requestAcceptsJSONAsResponse (req.Header.Get "Accept".toList) = true
  · refine ⟨fun _ => ha, fun _ => ?_⟩
    by_cases ht : req.Query.Get "tittle".toList = []
    · rw [booksHandler_no_title w req ⟨hm, hb⟩ ha ht]
      simp [HandlerRun.status]
    · rw [booksHandler_validated w req ⟨hm, hb⟩ ha ht]
      rcases findBooks w (requestFilters req.Query) with ⟨bs, _ | e⟩ | _ <;>
        simp [HandlerRun.status]
  · refine ⟨fun h => absurd ?_ h, fun h => absurd h ha⟩
    rw [booksHandler_not_accepted w req ⟨hm, hb⟩ ha]
    rfl

/-- A witness of `booksHandler_accept_check_iff`: the header
`text/html, application/json` passes the check. -/
theorem booksHandler_accept_check_iff_witness :
    (booksHandler worldTwoBooks
        (getRequest "text/html, application/json".toList queryDune)).status ≠ some 415 :=
  (booksHandler_accept_check_iff worldTwoBooks
    (getRequest "text/html, application/json".toList queryDune) rfl rfl).mpr (by decide)

/-- The two upstream failures that do reach the handler as an error: when the
outbound call returns a response, a status other than 200 and a body that
does not decode both make `findBooks` return an error and no books. -/
theorem findBooks_error_of_response (w : World) (filters : BookFilters) (resp : HttpResponse)
    (hu : ∀ raw, w.urlParse raw = some raw) (hr : ∀ m u, w.newRequestErr m u = none)
    (hd : ∀ r, (w.clientDo r).1 = some resp) :
    (resp.StatusCode ≠ 200 →
        findBooks w filters
          = Outcome.ret ([], some
              ("error while trying to make a request to Google Books API. Status code ".toList
                ++ fmtD resp.StatusCode)))
      ∧ (resp.StatusCode = 200 → ∀ e, w.jsonDecode resp.Body = Except.error e →
          findBooks w filters = Outcome.ret ([], some e)) := by
  constructor
  · intro hs
    unfold findBooks
    simp only [hu, hr, hd, Option.isNone_none, if_true]
    rw [if_pos hs]
  · intro hs e he
    unfold findBooks
    simp only [hu, hr, hd, Option.isNone_none, if_true]
    rw [if_neg (by simpa using hs), he]

/-- An error returned by `findBooks` is answered with status 500 and a message,
not with a book list. -/
theorem booksHandler_500_of_error (w : World) (req : Request) (bs : List Book) (err : GoError)
    (hm : req.Method = "GET".toList) (hb : req.hasBody = true)
    (ha : requestAcceptsJSONAsResponse (req.Header.Get "Accept".toList) = true)
    (ht : req.Query.Get "tittle".toList ≠ [])
    (hf : findBooks w (requestFilters req.Query) = Outcome.ret (bs, some err)) :
    (booksHandler w req).outcome
      = Outcome.ret ⟨500, Payload.error ("Could not retrieve books: ".toList ++ err)⟩ := by
  rw [booksHandler_validated w req ⟨hm, hb⟩ ha ht, hf]

/-- An upstream status 503 is answered with status 500. -/
theorem booksHandler_upstream_503 :
    (booksHandler worldUnavailable (getRequest "*/*".toList queryDune)).status = some 500 := by
  decide

/-- The example of the specification: `GET /books?tittle=Dune` with
`Accept: application/json` and a reachable upstream is answered 200 with the
projected books. -/
theorem booksHandler_success_example :
    (booksHandler worldTwoBooks (getRequest "application/json".toList queryDune)).outcome
      = Outcome.ret ⟨200, Payload.books [itemToBook itemDune, itemToBook itemEmma]⟩ := by
  decide
